import Mathlib

/-!
Verification development for the autom8 repository (src/agent.py, src/tools.py,
src/autom8.py): a conversational agent loop that lets a language model invoke
file and git tools.

Shallow embedding conventions:
* Python strings are Lean `String`; substring search and first-occurrence
  replacement (`str.find`, `str.replace(old, new, 1)`) are modelled over
  `List Char` by `hasSub` and `replFirst`.
* The filesystem is a `World`: an association list from resolved path to file
  content plus a list of existing directories.  `_resolve_abs_path` is an
  abstract parameter `resolve : String → String` (its OS behaviour - home
  expansion, cwd joining - is irrelevant to the claims, which always use one
  path consistently).
* A Python exception propagating out of a function is `Except.error`; a
  function that cannot raise past its boundary returns a plain value.
  The dict `{"error": str(e)}` produced by the `except` blocks in tools.py is
  `ToolPayload.errorDict`.
* `subprocess.run(cmd, check=True)` outcomes are an oracle `SubprocResult`;
  a non-zero exit is `SubprocResult.fail`, which `check=True` turns into a
  raised `CalledProcessError` (`Except.error`).
-/

/-! ## Strings: substring search and first-occurrence replacement -/

/-- `begins old s` : does `s` start with `old`?  (Executable prefix test.) -/
def begins : List Char → List Char → Bool
  | [], _ => true
  | _ :: _, [] => false
  | a :: as, b :: bs => a == b && begins as bs

/-- `hasSub old s` : does `old` occur as a contiguous substring of `s`?
Matches Python `s.find(old) != -1` (the empty string occurs everywhere). -/
def hasSub (old : List Char) : List Char → Bool
  | [] => begins old []
  | c :: rest => begins old (c :: rest) || hasSub old rest

/-- Replace the first (leftmost) occurrence of `old` in `s` by `new`:
the model of Python `s.replace(old, new, 1)` for non-empty `old`. -/
def replFirst (old new : List Char) : List Char → List Char
  | [] => []
  | c :: rest =>
    if begins old (c :: rest) then new ++ (c :: rest).drop old.length
    else c :: replFirst old new rest

/-- Python `s.find(old) != -1`. -/
def pyFound (s old : String) : Bool := hasSub old.toList s.toList

/-- Python `s.replace(old, new, 1)`. -/
def pyReplaceFirst (s old new : String) : String :=
  String.mk (replFirst old.toList new.toList s.toList)

/-- Python `s.strip()`: drop leading and trailing whitespace. -/
def pyStrip (s : String) : String :=
  String.mk
    (((s.toList.dropWhile Char.isWhitespace).reverse.dropWhile
        Char.isWhitespace).reverse)

theorem begins_iff (old : List Char) :
    ∀ s : List Char, begins old s = true ↔ ∃ t, s = old ++ t := by
  induction old with
  | nil => intro s; simp [begins]
  | cons a as ih =>
    intro s
    cases s with
    | nil => simp [begins]
    | cons b bs =>
      simp only [begins, Bool.and_eq_true, beq_iff_eq, List.cons_append,
        List.cons.injEq, ih]
      constructor
      · rintro ⟨rfl, t, rfl⟩; exact ⟨t, rfl, rfl⟩
      · rintro ⟨t, rfl, rfl⟩; exact ⟨rfl, t, rfl⟩

theorem hasSub_of_begins {old s : List Char} (h : begins old s = true) :
    hasSub old s = true := by
  cases s with
  | nil => simpa [hasSub] using h
  | cons c rest => simp [hasSub, h]

/-- Specification of `replFirst`: when non-empty `old` occurs in `s`, the
result replaces exactly the leftmost occurrence (no occurrence of `old`
starts strictly before it), leaving everything else unchanged. -/
theorem replFirst_spec (old new : List Char) (hne : old ≠ []) :
    ∀ s : List Char, hasSub old s = true →
      ∃ pre suf, s = pre ++ old ++ suf ∧
        (∀ i, i < pre.length → begins old (s.drop i) = false) ∧
        replFirst old new s = pre ++ new ++ suf := by
  intro s
  induction s with
  | nil =>
    intro hs
    exfalso
    cases old with
    | nil => exact hne rfl
    | cons a as => simp [hasSub, begins] at hs
  | cons c rest ih =>
    intro hs
    by_cases hb : begins old (c :: rest) = true
    · obtain ⟨t, ht⟩ := (begins_iff old (c :: rest)).mp hb
      refine ⟨[], t, by simpa using ht, ?_, ?_⟩
      · intro i hi; simp at hi
      · simp only [replFirst, hb, if_true]
        rw [ht, List.drop_left]
        simp
    · have hb' : begins old (c :: rest) = false := by
        simpa using hb
      have hs' : hasSub old rest = true := by
        simpa [hasSub, hb'] using hs
      obtain ⟨pre, suf, h1, h2, h3⟩ := ih hs'
      refine ⟨c :: pre, suf, by simp [h1], ?_, ?_⟩
      · intro i hi
        cases i with
        | zero => simpa using hb'
        | succ j =>
          simp only [List.drop_succ_cons]
          exact h2 j (by simpa using hi)
      · simp [replFirst, hb', h3]

/-! ## Filesystem model -/

/-- The filesystem state visible to the tools: resolved path ↦ content for
files, plus the set (list) of existing directories. -/
structure World where
  files : List (String × String)
  dirs : List String
deriving DecidableEq

/-- Successful `Path.write_text`: create or overwrite a file entry. -/
def fsWrite (files : List (String × String)) (k v : String) :
    List (String × String) :=
  (k, v) :: files

/-- `Path.write_text(v)` on an arbitrary path: raises `IsADirectoryError`
when the path names an existing directory, otherwise creates or overwrites
the file.  (The missing-parent `FileNotFoundError` is outside this model:
`World` records directories as a flat set and interprets no path
hierarchy.) -/
def writeText (w : World) (p v : String) :
    Except String (List (String × String)) :=
  if w.dirs.contains p then Except.error ("IsADirectoryError: " ++ p)
  else Except.ok (fsWrite w.files p v)

/-- `Path.exists()`: true for an existing file or directory. -/
def pathExists (w : World) (p : String) : Bool :=
  (w.files.lookup p).isSome || w.dirs.contains p

/-- `Path.read_text()` / `open(p).read()`: returns the content, or raises
`FileNotFoundError` (missing) / `IsADirectoryError` (path is a directory). -/
def readText (w : World) (p : String) : Except String String :=
  match w.files.lookup p with
  | some c => Except.ok c
  | none =>
    Except.error
      (if w.dirs.contains p then "IsADirectoryError: " ++ p
       else "FileNotFoundError: " ++ p)

/-- The structured dict a tool returns into the conversation. -/
inductive ToolPayload where
  | fileContent (file_path : String) (content : String)
  | listing (path : String) (files : List (String × Bool))
  | action (path : String) (act : String)
  | gitOut (stdout : String)
  | noneVal
  | errorDict (msg : String)
deriving DecidableEq

/-- Outcome of one `subprocess.run` invocation: captured stdout on exit
code 0, or failure (non-zero exit, missing binary, ...). -/
inductive SubprocResult where
  | ok (stdout : String)
  | fail (msg : String)
deriving DecidableEq

/-! ## src/tools.py -/

namespace tools

/-- Body of `read_file_tool` in tools.py (the code inside its `try`). -/
def read_file_body (resolve : String → String) (w : World)
    (filename : String) : Except String ToolPayload :=
  match readText w (resolve filename) with
  | Except.ok c => Except.ok (ToolPayload.fileContent (resolve filename) c)
  | Except.error e => Except.error e

/-- tools.py `read_file_tool`: the body wrapped by
`except Exception as e: return {"error": str(e)}`. -/
def read_file_tool (resolve : String → String) (w : World)
    (filename : String) : ToolPayload :=
  match read_file_body resolve w filename with
  | Except.ok p => p
  | Except.error e => ToolPayload.errorDict e

/-- Body of `list_files_tool` in tools.py.  `iterdir` is the OS directory
enumeration oracle: `none` means `Path.iterdir()` raises (missing path or
not a directory); `some items` is the children with their file/dir tag. -/
def list_files_body (resolve : String → String)
    (iterdir : String → Option (List (String × Bool)))
    (path : String) : Except String ToolPayload :=
  match iterdir (resolve path) with
  | some items => Except.ok (ToolPayload.listing (resolve path) items)
  | none => Except.error ("NotADirectoryError: " ++ resolve path)

/-- tools.py `list_files_tool` (body wrapped by the `except` block). -/
def list_files_tool (resolve : String → String)
    (iterdir : String → Option (List (String × Bool)))
    (path : String) : ToolPayload :=
  match list_files_body resolve iterdir path with
  | Except.ok p => p
  | Except.error e => ToolPayload.errorDict e

/-- Body of `edit_file_tool` in tools.py: existence check, then
create-or-overwrite on empty `old_str`, else first-occurrence replace with a
non-fatal miss. -/
def edit_file_body (resolve : String → String) (w : World)
    (path old_str new_str : String) : World × Except String ToolPayload :=
  let p := resolve path
  if pathExists w p = false ∧ old_str ≠ "" then
    (w, Except.ok (ToolPayload.action p "path does not exist"))
  else if old_str = "" then
    match writeText w p new_str with
    | Except.ok files =>
      (World.mk files w.dirs,
       Except.ok (ToolPayload.action p ("Created file " ++ path)))
    | Except.error e => (w, Except.error e)
  else
    match readText w p with
    | Except.error e => (w, Except.error e)
    | Except.ok original =>
      if pyFound original old_str then
        -- the write-back follows a successful read of the same path, so
        -- the path names a readable regular file and write_text succeeds
        (World.mk (fsWrite w.files p (pyReplaceFirst original old_str new_str)) w.dirs,
         Except.ok (ToolPayload.action p "Edited: old_str replaced by new_str successfully"))
      else
        (w, Except.ok (ToolPayload.action p "old_str not found"))

/-- tools.py `edit_file_tool` (body wrapped by the `except` block). -/
def edit_file_tool (resolve : String → String) (w : World)
    (path old_str new_str : String) : World × ToolPayload :=
  match edit_file_body resolve w path old_str new_str with
  | (w', Except.ok p) => (w', p)
  | (w', Except.error e) => (w', ToolPayload.errorDict e)

/-- Body of `create_directory_tool` in tools.py:
`mkdir(parents=True, exist_ok=True)` - idempotent on an existing directory,
raises `FileExistsError` when the path names an existing file. -/
def create_directory_body (resolve : String → String) (w : World)
    (path : String) : World × Except String ToolPayload :=
  let p := resolve path
  if (w.files.lookup p).isSome then
    (w, Except.error ("FileExistsError: " ++ p))
  else if w.dirs.contains p then
    (w, Except.ok (ToolPayload.action p "Directory created successfully"))
  else
    (World.mk w.files (p :: w.dirs),
     Except.ok (ToolPayload.action p "Directory created successfully"))

/-- tools.py `create_directory_tool` (body wrapped by the `except` block). -/
def create_directory_tool (resolve : String → String) (w : World)
    (path : String) : World × ToolPayload :=
  match create_directory_body resolve w path with
  | (w', Except.ok p) => (w', p)
  | (w', Except.error e) => (w', ToolPayload.errorDict e)

/-- tools.py `git_status_tool`: `subprocess.run(..., check=True)` so a git
failure raises `CalledProcessError` (no `try` around it: it propagates). -/
def git_status_tool (r : SubprocResult) : Except String String :=
  match r with
  | SubprocResult.ok out => Except.ok out
  | SubprocResult.fail e => Except.error e

/-- tools.py `git_add_tool`: `check=True`, no `try`; returns `None`. -/
def git_add_tool (r : SubprocResult) (path : String) : Except String Unit :=
  match r with
  | SubprocResult.ok _ => Except.ok ()
  | SubprocResult.fail e => Except.error e

/-- tools.py `git_diff_tool`: `check=True`, no `try`. -/
def git_diff_tool (r : SubprocResult) (path : Option String) :
    Except String String :=
  match r with
  | SubprocResult.ok out => Except.ok out
  | SubprocResult.fail e => Except.error e

/-- tools.py `git_commit_tool`: `check=True`, no `try`; returns `None`. -/
def git_commit_tool (r : SubprocResult) (message : String) :
    Except String Unit :=
  match r with
  | SubprocResult.ok _ => Except.ok ()
  | SubprocResult.fail e => Except.error e

/-- The keys of tools.py `TOOL_REGISTRY`, in registration order. -/
def TOOL_REGISTRY : List String :=
  ["read_file", "list_files", "edit_file", "create_directory",
   "git_status", "git_add", "git_diff", "git_commit"]

end tools

/-! ## Conversation data model (the message dicts of agent.py) -/

/-- One entry of the model's `tool_calls` list: correlation id, function
name, and the JSON-decoded arguments dict (all parameters are strings). -/
structure ToolCall where
  id : String
  name : String
  arguments : List (String × String)
deriving DecidableEq

/-- One message dict of the `conversation` list in agent.py.  A tool entry
carries the payload dict before `json.dumps` serialization (serialization is
a presentation adapter outside the model). -/
inductive Entry where
  | system (content : String)
  | user (content : String)
  | assistant (content : String) (tool_calls : List ToolCall)
  | tool (tool_call_id : String) (payload : ToolPayload)
deriving DecidableEq

/-- Is this entry the system entry? -/
def Entry.isSystem : Entry → Bool
  | Entry.system _ => true
  | _ => false

/-- The decoded model response: `response.choices[0].message` with
`tool_calls or []` already applied. -/
structure AssistantMessage where
  content : String
  tool_calls : List ToolCall
deriving DecidableEq

/-- `args.get(key, default)` on the decoded JSON arguments dict. -/
def argsGet (args : List (String × String)) (key dflt : String) : String :=
  (args.lookup key).getD dflt

/-! ## src/agent.py -/

namespace agent

/-- agent.py `read_file_tool`: no `try` block here - `open` on a missing
file raises and the exception propagates. -/
def read_file_tool (resolve : String → String) (w : World)
    (filename : String) : Except String ToolPayload :=
  match readText w (resolve filename) with
  | Except.ok c => Except.ok (ToolPayload.fileContent (resolve filename) c)
  | Except.error e => Except.error e

/-- agent.py `list_files_tool`: no `try` block - `iterdir` on a bad path
raises and the exception propagates. -/
def list_files_tool (resolve : String → String)
    (iterdir : String → Option (List (String × Bool)))
    (path : String) : Except String ToolPayload :=
  match iterdir (resolve path) with
  | some items => Except.ok (ToolPayload.listing (resolve path) items)
  | none => Except.error ("NotADirectoryError: " ++ resolve path)

/-- agent.py `edit_file_tool`: like tools.py but with no existence check and
no `try` block - `read_text` on a missing file raises. -/
def edit_file_tool (resolve : String → String) (w : World)
    (path old_str new_str : String) : Except String (World × ToolPayload) :=
  let p := resolve path
  if old_str = "" then
    match writeText w p new_str with
    | Except.ok files =>
      Except.ok (World.mk files w.dirs, ToolPayload.action p "created_file")
    | Except.error e => Except.error e
  else
    match readText w p with
    | Except.error e => Except.error e
    | Except.ok original =>
      if pyFound original old_str then
        -- write-back after a successful read of the same path: the path
        -- names a readable regular file, so write_text succeeds
        Except.ok
          (World.mk (fsWrite w.files p (pyReplaceFirst original old_str new_str)) w.dirs,
           ToolPayload.action p "Edited: old_str replaced by new_str successfully")
      else
        Except.ok (w, ToolPayload.action p "old_str not found")

/-- The keys of agent.py `TOOL_REGISTRY` (the registry the loop in agent.py
advertises via `_build_tools` and dispatches through). -/
def TOOL_REGISTRY : List String := ["read_file", "list_files", "edit_file"]

/-- One dispatch of the loop body (agent.py `Agent.run`, the `for call in
tool_calls` body): `TOOL_REGISTRY[name]` raises `KeyError` for an
unregistered name; otherwise the matching branch extracts arguments with
`args.get` defaults and calls the capability.  An exception from the
capability propagates (there is no `try` in the loop). -/
def dispatchCall (resolve : String → String)
    (iterdir : String → Option (List (String × Bool)))
    (w : World) (c : ToolCall) : Except String (World × ToolPayload) :=
  if TOOL_REGISTRY.contains c.name = false then
    Except.error ("KeyError: " ++ c.name)
  else if c.name = "read_file" then
    match read_file_tool resolve w (argsGet c.arguments "filename" ".") with
    | Except.ok p => Except.ok (w, p)
    | Except.error e => Except.error e
  else if c.name = "list_files" then
    match list_files_tool resolve iterdir (argsGet c.arguments "path" ".") with
    | Except.ok p => Except.ok (w, p)
    | Except.error e => Except.error e
  else
    edit_file_tool resolve w (argsGet c.arguments "path" ".")
      (argsGet c.arguments "old_str" "") (argsGet c.arguments "new_str" "")

/-- Dispatch a whole `tool_calls` batch in order, accumulating the appended
tool entries.  Returns the final world, the entries appended so far, and
`some e` when a dispatch raised `e` (aborting the rest of the batch, with
the earlier appends kept - exactly the Python `for` loop). -/
def dispatchBatch (resolve : String → String)
    (iterdir : String → Option (List (String × Bool))) :
    World → List ToolCall → World × List Entry × Option String
  | w, [] => (w, [], none)
  | w, c :: rest =>
    match dispatchCall resolve iterdir w c with
    | Except.error e => (w, [], some e)
    | Except.ok (w', p) =>
      let r := dispatchBatch resolve iterdir w' rest
      (r.1, Entry.tool c.id p :: r.2.1, r.2.2)

/-- How one inner loop of `Agent.run` ended. -/
inductive TurnStatus where
  | answered (text : String)
  | fuelOut
  | raised (e : String)
deriving DecidableEq

/-- Result of running the inner loop: final world, final conversation, the
snapshots passed to `_execute_llm_call` (in call order), and the status. -/
structure TurnResult where
  w : World
  conv : List Entry
  calls : List (List Entry)
  status : TurnStatus
deriving DecidableEq

/-- The inner `while True` loop of `Agent.run` (agent.py lines 157-190):
call the model on the full conversation; with no tool calls append the
assistant entry and stop; otherwise append the assistant entry carrying the
tool calls, dispatch the whole batch appending one tool entry per call, and
loop.  `fuel` bounds the unbounded source loop for totality. -/
def runTurnLoop (oracle : List Entry → AssistantMessage)
    (resolve : String → String)
    (iterdir : String → Option (List (String × Bool))) :
    Nat → World → List Entry → TurnResult
  | 0, w, conv => TurnResult.mk w conv [] TurnStatus.fuelOut
  | fuel + 1, w, conv =>
    let msg := oracle conv
    if msg.tool_calls = [] then
      TurnResult.mk w (conv ++ [Entry.assistant msg.content []]) [conv]
        (TurnStatus.answered msg.content)
    else
      let conv1 := conv ++ [Entry.assistant msg.content msg.tool_calls]
      let d := dispatchBatch resolve iterdir w msg.tool_calls
      match d.2.2 with
      | some e => TurnResult.mk d.1 (conv1 ++ d.2.1) [conv] (TurnStatus.raised e)
      | none =>
        let r := runTurnLoop oracle resolve iterdir fuel d.1 (conv1 ++ d.2.1)
        TurnResult.mk r.w r.conv (conv :: r.calls) r.status

/-- Result of the whole interactive session loop. -/
structure SessionResult where
  w : World
  conv : List Entry
  calls : List (List Entry)
  crashed : Option String
deriving DecidableEq

/-- The outer `while True` loop of `Agent.run`: per user input, append the
stripped text as a user entry and run the inner loop; an exception from the
inner loop crashes the session; the input list ending models EOF. -/
def runUserLoop (oracle : List Entry → AssistantMessage)
    (resolve : String → String)
    (iterdir : String → Option (List (String × Bool))) (fuel : Nat) :
    World → List Entry → List String → SessionResult
  | w, conv, [] => SessionResult.mk w conv [] none
  | w, conv, u :: rest =>
    let r := runTurnLoop oracle resolve iterdir fuel w (conv ++ [Entry.user (pyStrip u)])
    match r.status with
    | TurnStatus.answered _ =>
      let s := runUserLoop oracle resolve iterdir fuel r.w r.conv rest
      SessionResult.mk s.w s.conv (r.calls ++ s.calls) s.crashed
    | TurnStatus.fuelOut => SessionResult.mk r.w r.conv r.calls none
    | TurnStatus.raised e => SessionResult.mk r.w r.conv r.calls (some e)

/-- The system prompt `Agent.__init__` stores and seeds the conversation
with. -/
def SYSTEM_PROMPT : String :=
  "You are a coding assistant whose goal it is to help us solve coding tasks. Use available tools when needed. If no tool is needed, respond normally."

/-- agent.py `Agent.run`: the conversation starts as the single system
entry, then the user loop runs. -/
def run (oracle : List Entry → AssistantMessage)
    (resolve : String → String)
    (iterdir : String → Option (List (String × Bool))) (fuel : Nat)
    (w : World) (inputs : List String) : SessionResult :=
  runUserLoop oracle resolve iterdir fuel w [Entry.system SYSTEM_PROMPT] inputs

end agent

/-! ## Agent.run_turn and src/autom8.py -/

/-- Modelled from the spec: the Model Gateway's classified result (spec
section 4.4) - a final textual answer or a batch of tool requests. -/
inductive Decision where
  | FinalAnswer (text : String)
  | ToolRequests (reqs : List ToolCall)
deriving DecidableEq

/-- The external oracles the tool capabilities depend on: path resolution,
directory enumeration, and the outcome of each git subprocess command. -/
structure Env where
  resolve : String → String
  iterdir : String → Option (List (String × Bool))
  gitStatus : SubprocResult
  gitAdd : SubprocResult
  gitDiff : SubprocResult
  gitCommit : SubprocResult

namespace spec

/-- Modelled from the spec: registry dispatch (spec sections 4.1 and 7) for
the `run_turn` agent variant whose body is not under src (autom8.py calls
`Agent.run_turn`, but src/agent.py only defines `Agent.run`).  Dispatch
coerces/defaults arguments, routes to the tools.py capability, converts an
unknown name to an `UnknownToolError` outcome, and captures capability
failures as error outcomes rather than letting them abort the turn. -/
def dispatch (env : Env) (w : World) (c : ToolCall) : World × ToolPayload :=
  if c.name = "read_file" then
    (w, tools.read_file_tool env.resolve w (argsGet c.arguments "filename" "."))
  else if c.name = "list_files" then
    (w, tools.list_files_tool env.resolve env.iterdir (argsGet c.arguments "path" "."))
  else if c.name = "edit_file" then
    tools.edit_file_tool env.resolve w (argsGet c.arguments "path" ".")
      (argsGet c.arguments "old_str" "") (argsGet c.arguments "new_str" "")
  else if c.name = "create_directory" then
    tools.create_directory_tool env.resolve w (argsGet c.arguments "path" ".")
  else if c.name = "git_status" then
    match tools.git_status_tool env.gitStatus with
    | Except.ok out => (w, ToolPayload.gitOut out)
    | Except.error e => (w, ToolPayload.errorDict e)
  else if c.name = "git_add" then
    match tools.git_add_tool env.gitAdd (argsGet c.arguments "path" ".") with
    | Except.ok _ => (w, ToolPayload.noneVal)
    | Except.error e => (w, ToolPayload.errorDict e)
  else if c.name = "git_diff" then
    match tools.git_diff_tool env.gitDiff (c.arguments.lookup "path") with
    | Except.ok out => (w, ToolPayload.gitOut out)
    | Except.error e => (w, ToolPayload.errorDict e)
  else if c.name = "git_commit" then
    match tools.git_commit_tool env.gitCommit (argsGet c.arguments "message" "") with
    | Except.ok _ => (w, ToolPayload.noneVal)
    | Except.error e => (w, ToolPayload.errorDict e)
  else
    (w, ToolPayload.errorDict ("UnknownToolError: " ++ c.name))

/-- Modelled from the spec: dispatch a batch of requests in order (spec
section 4.5 step 4), invoking the observer once per dispatch and appending
one ToolOutcome entry per request, carrying its call_id. -/
def dispatchBatch (env : Env)
    (observer : String → List (String × String) → Unit) :
    World → List ToolCall → World × List Entry
  | w, [] => (w, [])
  | w, c :: rest =>
    let _ := observer c.name c.arguments
    let d := dispatch env w c
    let r := dispatchBatch env observer d.1 rest
    (r.1, Entry.tool c.id d.2 :: r.2)

/-- Modelled from the spec: the inner loop of `run_turn` (spec section 4.5
steps 2-4).  `none` means the fuel bound was hit (the source loop is
unbounded). -/
def runTurnInner (gateway : List Entry → Decision) (env : Env)
    (observer : String → List (String × String) → Unit) :
    Nat → World → List Entry → Option (World × List Entry × String)
  | 0, _, _ => none
  | fuel + 1, w, conv =>
    match gateway conv with
    | Decision.FinalAnswer t => some (w, conv ++ [Entry.assistant t []], t)
    | Decision.ToolRequests reqs =>
      let d := dispatchBatch env observer w reqs
      runTurnInner gateway env observer fuel d.1
        (conv ++ [Entry.assistant "" reqs] ++ d.2)

/-- Modelled from the spec: `Agent.run_turn(user_text, tool_observer?) ->
assistant_text` (spec sections 4.5 and 6), the operation autom8.py's main
loop calls but whose body is not under src.  Appends the user entry, runs
the inner loop, and returns the final answer text. -/
def run_turn (gateway : List Entry → Decision) (env : Env)
    (observer : String → List (String × String) → Unit) (fuel : Nat)
    (w : World) (conv : List Entry) (user_text : String) :
    Option (World × List Entry × String) :=
  runTurnInner gateway env observer fuel w (conv ++ [Entry.user user_text])

end spec

namespace autom8

/-- src/autom8.py `main`: per user input, one `run_turn` call, printing the
returned assistant text.  Returns the list of printed assistant texts;
`run_turn` running out of fuel ends the session model. -/
def mainOutputs (gateway : List Entry → Decision) (env : Env) (fuel : Nat) :
    World → List Entry → List String → List String
  | _, _, [] => []
  | w, conv, u :: rest =>
    match spec.run_turn gateway env (fun _ _ => ()) fuel w conv u with
    | some (w', conv', text) => text :: mainOutputs gateway env fuel w' conv' rest
    | none => []

end autom8

/-! ## Helper lemmas -/

theorem hasSub_nil_true : ∀ s : List Char, hasSub [] s = true := by
  intro s
  cases s with
  | nil => simp [hasSub, begins]
  | cons c rest => simp [hasSub, begins]

theorem toList_eq_nil {s : String} (h : s.toList = []) : s = "" := by
  cases s with
  | mk data =>
    simp only [String.toList] at h
    subst h
    rfl

/-! ## Claims about edit_file (tools.py) -/

/-- C6 counterexample: when the resolved path names an existing directory,
`edit_file(path, "", X)` does not create the file - `write_text` raises
`IsADirectoryError`, the `except` block converts it to an error dict, no
write occurs, and the follow-up `read_file` returns an error dict, not
`X`. -/
theorem edit_create_read_roundtrip_cex :
    tools.edit_file_tool (fun s => s) (World.mk [] ["d"]) "d" "" "X" =
      (World.mk [] ["d"], ToolPayload.errorDict "IsADirectoryError: d") ∧
    tools.read_file_tool (fun s => s)
        (tools.edit_file_tool (fun s => s) (World.mk [] ["d"]) "d" "" "X").1
        "d" =
      ToolPayload.errorDict "IsADirectoryError: d" ∧
    ToolPayload.errorDict "IsADirectoryError: d" ≠
      ToolPayload.fileContent "d" "X" :=
  ⟨rfl, rfl, by decide⟩

/-- C6 amended: `edit_file(path, "", X)` followed by `read_file(path)`
yields content exactly `X` whenever the resolved path is not an existing
directory; when it names an existing directory, `write_text` raises
`IsADirectoryError`, edit_file catches it into an error payload, and no
write is performed. -/
theorem edit_create_read_roundtrip_amended :
    ∀ (resolve : String → String) (w : World) (p X : String),
      (w.dirs.contains (resolve p) = false →
        tools.read_file_tool resolve
            (tools.edit_file_tool resolve w p "" X).1 p =
          ToolPayload.fileContent (resolve p) X) ∧
      (w.dirs.contains (resolve p) = true →
        tools.edit_file_tool resolve w p "" X =
          (w, ToolPayload.errorDict ("IsADirectoryError: " ++ resolve p))) := by
  intro resolve w p X
  constructor
  · intro hdir
    have hd : resolve p ∉ w.dirs := by
      simpa using hdir
    simp [tools.read_file_tool, tools.read_file_body, tools.edit_file_tool,
      tools.edit_file_body, writeText, hd, readText, fsWrite, List.lookup]
  · intro hdir
    have hd : resolve p ∈ w.dirs := by
      simpa using hdir
    simp [tools.edit_file_tool, tools.edit_file_body, writeText, hd]

/-- C6 amended witness: the roundtrip at a concrete non-directory path, and
the error outcome at a concrete directory path. -/
theorem edit_create_read_roundtrip_amended_witness :
    (World.mk [] ([] : List String)).dirs.contains "f.txt" = false ∧
    tools.read_file_tool (fun s => s)
        (tools.edit_file_tool (fun s => s) (World.mk [] []) "f.txt" "" "X").1
        "f.txt" =
      ToolPayload.fileContent "f.txt" "X" ∧
    (World.mk [] ["d"]).dirs.contains "d" = true ∧
    tools.edit_file_tool (fun s => s) (World.mk [] ["d"]) "d" "" "X" =
      (World.mk [] ["d"], ToolPayload.errorDict "IsADirectoryError: d") :=
  ⟨rfl,
   (edit_create_read_roundtrip_amended (fun s => s) (World.mk [] [])
      "f.txt" "X").1 rfl,
   rfl,
   (edit_create_read_roundtrip_amended (fun s => s) (World.mk [] ["d"])
      "d" "X").2 rfl⟩

/-- C5: on an existing file whose content does not contain `old_str`,
`edit_file` performs no write - the returned world is the input world
(file content byte-identical) and the payload is the non-fatal
"old_str not found" outcome. -/
theorem edit_file_miss_no_write :
    ∀ (resolve : String → String) (w : World) (p old new content : String),
      w.files.lookup (resolve p) = some content →
      hasSub old.toList content.toList = false →
      tools.edit_file_tool resolve w p old new =
        (w, ToolPayload.action (resolve p) "old_str not found") := by
  intro resolve w p old new content h1 h2
  have hold : old ≠ "" := by
    intro h
    subst h
    rw [show ("" : String).toList = [] from rfl, hasSub_nil_true] at h2
    exact Bool.noConfusion h2
  have h2' : hasSub old.data content.data = false := h2
  have hex : pathExists w (resolve p) = true := by
    simp [pathExists, h1]
  simp [tools.edit_file_tool, tools.edit_file_body, hex, hold, readText, h1,
    pyFound, h2']

/-- C5 witness: a concrete miss leaves the world untouched. -/
theorem edit_file_miss_no_write_witness :
    (World.mk [("f.txt", "hello world")] []).files.lookup "f.txt" =
        some "hello world" ∧
      hasSub "zzz".toList "hello world".toList = false ∧
      tools.edit_file_tool (fun s => s) (World.mk [("f.txt", "hello world")] [])
          "f.txt" "zzz" "new" =
        (World.mk [("f.txt", "hello world")] [],
         ToolPayload.action "f.txt" "old_str not found") :=
  ⟨rfl, by decide,
    edit_file_miss_no_write (fun s => s) (World.mk [("f.txt", "hello world")] [])
      "f.txt" "zzz" "new" "hello world" rfl (by decide)⟩

/-- C2: for an existing file whose content contains non-empty `old_str`,
`edit_file` replaces exactly the first (leftmost) occurrence and writes the
result back; when `old_str` does not occur, it returns the non-fatal
"not found" outcome (a normal payload, no exception). -/
theorem edit_file_first_occurrence :
    ∀ (resolve : String → String) (w : World) (p old new content : String),
      w.files.lookup (resolve p) = some content →
      old ≠ "" →
      (hasSub old.toList content.toList = true →
        ∃ pre suf,
          content.toList = pre ++ old.toList ++ suf ∧
          (∀ i, i < pre.length →
            begins old.toList (content.toList.drop i) = false) ∧
          tools.edit_file_tool resolve w p old new =
            (World.mk
              (fsWrite w.files (resolve p) (String.mk (pre ++ new.toList ++ suf)))
              w.dirs,
             ToolPayload.action (resolve p)
               "Edited: old_str replaced by new_str successfully")) ∧
      (hasSub old.toList content.toList = false →
        tools.edit_file_tool resolve w p old new =
          (w, ToolPayload.action (resolve p) "old_str not found")) := by
  intro resolve w p old new content h1 hold
  have hex : pathExists w (resolve p) = true := by
    simp [pathExists, h1]
  constructor
  · intro hfound
    have hne : old.toList ≠ [] := by
      intro h
      exact hold (toList_eq_nil h)
    obtain ⟨pre, suf, hsplit, hmin, hrepl⟩ :=
      replFirst_spec old.toList new.toList hne content.toList hfound
    refine ⟨pre, suf, hsplit, hmin, ?_⟩
    have hedited : pyReplaceFirst content old new =
        String.mk (pre ++ new.toList ++ suf) := by
      unfold pyReplaceFirst
      rw [hrepl]
    have hfound' : hasSub old.data content.data = true := hfound
    simp [tools.edit_file_tool, tools.edit_file_body, hex, hold, readText, h1,
      pyFound, hfound', hedited]
  · intro hmiss
    exact edit_file_miss_no_write resolve w p old new content h1 hmiss

/-- C2 witness: on content "aXbXc" with old_str "X", only the first "X" is
replaced, at a concrete input. -/
theorem edit_file_first_occurrence_witness :
    (World.mk [("f.txt", "aXbXc")] []).files.lookup "f.txt" = some "aXbXc" ∧
      ("X" : String) ≠ "" ∧
      ((hasSub "X".toList "aXbXc".toList = true →
        ∃ pre suf,
          "aXbXc".toList = pre ++ "X".toList ++ suf ∧
          (∀ i, i < pre.length →
            begins "X".toList ("aXbXc".toList.drop i) = false) ∧
          tools.edit_file_tool (fun s => s) (World.mk [("f.txt", "aXbXc")] [])
              "f.txt" "X" "Y" =
            (World.mk
              (fsWrite (World.mk [("f.txt", "aXbXc")] []).files "f.txt"
                (String.mk (pre ++ "Y".toList ++ suf)))
              [],
             ToolPayload.action "f.txt"
               "Edited: old_str replaced by new_str successfully")) ∧
      (hasSub "X".toList "aXbXc".toList = false →
        tools.edit_file_tool (fun s => s) (World.mk [("f.txt", "aXbXc")] [])
            "f.txt" "X" "Y" =
          (World.mk [("f.txt", "aXbXc")] [],
           ToolPayload.action "f.txt" "old_str not found"))) :=
  ⟨rfl, by decide,
    edit_file_first_occurrence (fun s => s) (World.mk [("f.txt", "aXbXc")] [])
      "f.txt" "X" "Y" "aXbXc" rfl (by decide)⟩

/-! ## Claim C3: error propagation at the tool boundary -/

/-- C3 counterexample: not every capability fails closed.  tools.py's
`git_status_tool` runs `subprocess.run(..., check=True)` with no `try`, so
a git failure raises `CalledProcessError` past the tool boundary; and the
`read_file_tool` in agent.py (the variant cited by the claim) has no `try`
either, so a missing file raises `FileNotFoundError` out of the tool. -/
theorem tool_error_propagation_cex :
    tools.git_status_tool
        (SubprocResult.fail "CalledProcessError: git exited with status 128") =
      Except.error "CalledProcessError: git exited with status 128" ∧
    agent.read_file_tool (fun s => s) (World.mk [] []) "missing.txt" =
      Except.error "FileNotFoundError: missing.txt" :=
  ⟨rfl, rfl⟩

/-- C3 amended: the four filesystem capabilities in tools.py fail closed -
every call returns either a success payload or the structured
`{"error": msg}` dict, never an exception - while the git capabilities
propagate `CalledProcessError` on a failing subprocess (as their docstrings
state). -/
theorem tools_fail_closed_amended :
    ∀ (resolve : String → String)
      (iterdir : String → Option (List (String × Bool))) (w : World)
      (f pl pe po pn pd : String),
      ((∃ c, tools.read_file_tool resolve w f =
          ToolPayload.fileContent (resolve f) c) ∨
        (∃ e, tools.read_file_tool resolve w f = ToolPayload.errorDict e)) ∧
      ((∃ items, tools.list_files_tool resolve iterdir pl =
          ToolPayload.listing (resolve pl) items) ∨
        (∃ e, tools.list_files_tool resolve iterdir pl =
          ToolPayload.errorDict e)) ∧
      ((∃ w' a, tools.edit_file_tool resolve w pe po pn =
          (w', ToolPayload.action (resolve pe) a)) ∨
        (∃ w' e, tools.edit_file_tool resolve w pe po pn =
          (w', ToolPayload.errorDict e))) ∧
      ((∃ w', tools.create_directory_tool resolve w pd =
          (w', ToolPayload.action (resolve pd) "Directory created successfully")) ∨
        (∃ w' e, tools.create_directory_tool resolve w pd =
          (w', ToolPayload.errorDict e))) ∧
      (∀ e, tools.git_status_tool (SubprocResult.fail e) = Except.error e) ∧
      (∀ e pa, tools.git_add_tool (SubprocResult.fail e) pa = Except.error e) ∧
      (∀ e pa, tools.git_diff_tool (SubprocResult.fail e) pa = Except.error e) ∧
      (∀ e m, tools.git_commit_tool (SubprocResult.fail e) m = Except.error e) := by
  intro resolve iterdir w f pl pe po pn pd
  refine ⟨?_, ?_, ?_, ?_, fun e => rfl, fun e pa => rfl, fun e pa => rfl,
    fun e m => rfl⟩
  · unfold tools.read_file_tool tools.read_file_body readText
    cases h : w.files.lookup (resolve f) with
    | some c => exact Or.inl ⟨c, rfl⟩
    | none => exact Or.inr ⟨_, rfl⟩
  · unfold tools.list_files_tool tools.list_files_body
    cases h : iterdir (resolve pl) with
    | some items => exact Or.inl ⟨items, rfl⟩
    | none => exact Or.inr ⟨_, rfl⟩
  · unfold tools.edit_file_tool tools.edit_file_body
    by_cases h1 : pathExists w (resolve pe) = false ∧ po ≠ ""
    · rw [if_pos h1]
      exact Or.inl ⟨w, _, rfl⟩
    · rw [if_neg h1]
      by_cases h2 : po = ""
      · rw [if_pos h2]
        cases hw : writeText w (resolve pe) pn with
        | ok files => exact Or.inl ⟨_, _, rfl⟩
        | error e => exact Or.inr ⟨w, e, rfl⟩
      · rw [if_neg h2]
        cases hr : readText w (resolve pe) with
        | error e => exact Or.inr ⟨w, e, rfl⟩
        | ok original =>
          dsimp only
          cases h3 : pyFound original po with
          | true =>
            rw [if_pos rfl]
            exact Or.inl ⟨_, _, rfl⟩
          | false =>
            rw [if_neg (by simp)]
            exact Or.inl ⟨w, _, rfl⟩
  · unfold tools.create_directory_tool tools.create_directory_body
    by_cases h1 : (w.files.lookup (resolve pd)).isSome
    · rw [if_pos h1]
      exact Or.inr ⟨w, _, rfl⟩
    · rw [if_neg h1]
      by_cases h2 : w.dirs.contains (resolve pd)
      · rw [if_pos h2]
        exact Or.inl ⟨w, rfl⟩
      · rw [if_neg h2]
        exact Or.inl ⟨_, rfl⟩

/-! ## Claims C4 and C9: the loop registry and unknown tool names -/

theorem dispatchCall_not_registered (resolve : String → String)
    (iterdir : String → Option (List (String × Bool))) (w : World)
    (c : ToolCall) (h : c.name ∉ agent.TOOL_REGISTRY) :
    agent.dispatchCall resolve iterdir w c =
      Except.error ("KeyError: " ++ c.name) := by
  have hc : agent.TOOL_REGISTRY.contains c.name = false := by
    simpa using h
  unfold agent.dispatchCall
  rw [hc, if_pos rfl]

theorem dispatchBatch_head_not_registered (resolve : String → String)
    (iterdir : String → Option (List (String × Bool))) (w : World)
    (c : ToolCall) (rest : List ToolCall) (h : c.name ∉ agent.TOOL_REGISTRY) :
    agent.dispatchBatch resolve iterdir w (c :: rest) =
      (w, [], some ("KeyError: " ++ c.name)) := by
  simp [agent.dispatchBatch, dispatchCall_not_registered resolve iterdir w c h]

/-- C4 counterexample: a request naming an unregistered tool does NOT yield
an UnknownToolError outcome - `TOOL_REGISTRY[name]` raises `KeyError`, the
loop has no handler, the exception escapes, and no tool outcome entry is
appended to the conversation. -/
theorem unknown_tool_keyerror_cex :
    agent.dispatchCall (fun s => s) (fun _ => none) (World.mk [] [])
        (ToolCall.mk "call_1" "nonexistent_tool" []) =
      Except.error "KeyError: nonexistent_tool" ∧
    (agent.runTurnLoop
        (fun _ => AssistantMessage.mk ""
          [ToolCall.mk "call_1" "nonexistent_tool" []])
        (fun s => s) (fun _ => none) 1 (World.mk [] []) []).status =
      agent.TurnStatus.raised "KeyError: nonexistent_tool" ∧
    (agent.runTurnLoop
        (fun _ => AssistantMessage.mk ""
          [ToolCall.mk "call_1" "nonexistent_tool" []])
        (fun s => s) (fun _ => none) 1 (World.mk [] []) []).conv =
      [Entry.assistant "" [ToolCall.mk "call_1" "nonexistent_tool" []]] := by
  refine ⟨rfl, ?_, ?_⟩ <;> rfl

/-- C4 amended: a tool invocation request whose name is not registered in
agent.py's TOOL_REGISTRY makes the loop raise `KeyError` (from
`TOOL_REGISTRY[name]`), which propagates out of the agent loop; no tool
outcome is fed back into the conversation. -/
theorem unknown_tool_raises_amended :
    ∀ (resolve : String → String)
      (iterdir : String → Option (List (String × Bool))) (w : World)
      (c : ToolCall) (rest : List ToolCall),
      c.name ∉ agent.TOOL_REGISTRY →
      agent.dispatchCall resolve iterdir w c =
        Except.error ("KeyError: " ++ c.name) ∧
      agent.dispatchBatch resolve iterdir w (c :: rest) =
        (w, [], some ("KeyError: " ++ c.name)) ∧
      (∀ (oracle : List Entry → AssistantMessage) (conv : List Entry)
          (fuel : Nat),
        oracle conv = AssistantMessage.mk "" (c :: rest) →
        (agent.runTurnLoop oracle resolve iterdir (fuel + 1) w conv).status =
          agent.TurnStatus.raised ("KeyError: " ++ c.name)) := by
  intro resolve iterdir w c rest h
  refine ⟨dispatchCall_not_registered resolve iterdir w c h,
    dispatchBatch_head_not_registered resolve iterdir w c rest h, ?_⟩
  intro oracle conv fuel hg
  simp [agent.runTurnLoop, hg,
    dispatchBatch_head_not_registered resolve iterdir w c rest h]

/-- C4 amended witness: the amendment at a concrete unregistered name. -/
theorem unknown_tool_raises_amended_witness :
    agent.dispatchCall (fun s => s) (fun _ => none) (World.mk [] [])
        (ToolCall.mk "w4" "nonexistent_tool" []) =
      Except.error "KeyError: nonexistent_tool" ∧
    (agent.runTurnLoop
        (fun _ => AssistantMessage.mk "" [ToolCall.mk "w4" "nonexistent_tool" []])
        (fun s => s) (fun _ => none) 1 (World.mk [] []) []).status =
      agent.TurnStatus.raised "KeyError: nonexistent_tool" :=
  ⟨(unknown_tool_raises_amended (fun s => s) (fun _ => none) (World.mk [] [])
      (ToolCall.mk "w4" "nonexistent_tool" []) [] (by decide)).1,
   (unknown_tool_raises_amended (fun s => s) (fun _ => none) (World.mk [] [])
      (ToolCall.mk "w4" "nonexistent_tool" []) [] (by decide)).2.2
     (fun _ => AssistantMessage.mk "" [ToolCall.mk "w4" "nonexistent_tool" []])
     [] 0 rfl⟩

/-- C9 counterexample: the agent loop's registry (agent.py TOOL_REGISTRY,
the one `_build_tools` advertises and the dispatch reads) does not contain
`create_directory` or the git tools; dispatching such a request raises
`KeyError` instead of reaching a capability. -/
theorem loop_registry_missing_tools_cex :
    agent.TOOL_REGISTRY.contains "create_directory" = false ∧
    agent.TOOL_REGISTRY.contains "git_commit" = false ∧
    agent.dispatchCall (fun s => s) (fun _ => none) (World.mk [] [])
        (ToolCall.mk "call_1" "create_directory" [("path", "new_dir")]) =
      Except.error "KeyError: create_directory" := by
  refine ⟨rfl, rfl, rfl⟩

/-- C9 amended: tools.py's TOOL_REGISTRY registers all eight capabilities
(file read/list/edit, directory creation, git status/add/diff/commit), but
the agent loop in agent.py advertises and can dispatch only
read_file/list_files/edit_file; any other name raises `KeyError` at
dispatch. -/
theorem registry_coverage_amended :
    (∀ n ∈ ["read_file", "list_files", "edit_file", "create_directory",
        "git_status", "git_add", "git_diff", "git_commit"],
      n ∈ tools.TOOL_REGISTRY) ∧
    agent.TOOL_REGISTRY = ["read_file", "list_files", "edit_file"] ∧
    (∀ (resolve : String → String)
        (iterdir : String → Option (List (String × Bool))) (w : World)
        (c : ToolCall),
      c.name ∉ agent.TOOL_REGISTRY →
      agent.dispatchCall resolve iterdir w c =
        Except.error ("KeyError: " ++ c.name)) := by
  refine ⟨by decide, rfl, ?_⟩
  intro resolve iterdir w c h
  exact dispatchCall_not_registered resolve iterdir w c h

/-- C9 amended witness: `git_commit` is in the tools.py registry yet its
dispatch through the agent loop raises. -/
theorem registry_coverage_amended_witness :
    ("git_commit" : String) ∈ tools.TOOL_REGISTRY ∧
    agent.dispatchCall (fun s => s) (fun _ => none) (World.mk [] [])
        (ToolCall.mk "w9" "git_commit" [("message", "msg")]) =
      Except.error "KeyError: git_commit" :=
  ⟨registry_coverage_amended.1 "git_commit" (by decide),
   registry_coverage_amended.2.2 (fun s => s) (fun _ => none) (World.mk [] [])
     (ToolCall.mk "w9" "git_commit" [("message", "msg")]) (by decide)⟩

/-! ## Claim C10: argument defaulting at dispatch time -/

/-- C10: the loop's dispatch silently defaults missing arguments via
`args.get`: a missing `filename` (read_file) or `path` (list_files,
edit_file) defaults to ".", and missing `old_str`/`new_str` default to "" -
so an edit_file request without `old_str` runs in create-or-overwrite mode:
the defaulted path is written with the defaulted `new_str` when it does not
name an existing directory, and otherwise `write_text` raises
`IsADirectoryError`, which propagates (agent.py has no try around it). -/
theorem dispatch_argument_defaults :
    ∀ (resolve : String → String)
      (iterdir : String → Option (List (String × Bool))) (w : World)
      (id : String) (args : List (String × String)),
      (args.lookup "filename" = none →
        agent.dispatchCall resolve iterdir w (ToolCall.mk id "read_file" args) =
          match agent.read_file_tool resolve w "." with
          | Except.ok p => Except.ok (w, p)
          | Except.error e => Except.error e) ∧
      (args.lookup "path" = none →
        agent.dispatchCall resolve iterdir w (ToolCall.mk id "list_files" args) =
          match agent.list_files_tool resolve iterdir "." with
          | Except.ok p => Except.ok (w, p)
          | Except.error e => Except.error e) ∧
      (args.lookup "old_str" = none →
        agent.dispatchCall resolve iterdir w (ToolCall.mk id "edit_file" args) =
          agent.edit_file_tool resolve w (argsGet args "path" ".") ""
            (argsGet args "new_str" "") ∧
        (w.dirs.contains (resolve (argsGet args "path" ".")) = false →
          agent.dispatchCall resolve iterdir w
              (ToolCall.mk id "edit_file" args) =
            Except.ok
              (World.mk
                (fsWrite w.files (resolve (argsGet args "path" "."))
                  (argsGet args "new_str" ""))
                w.dirs,
               ToolPayload.action (resolve (argsGet args "path" "."))
                 "created_file")) ∧
        (w.dirs.contains (resolve (argsGet args "path" ".")) = true →
          agent.dispatchCall resolve iterdir w
              (ToolCall.mk id "edit_file" args) =
            Except.error
              ("IsADirectoryError: " ++ resolve (argsGet args "path" ".")))) := by
  intro resolve iterdir w id args
  refine ⟨?_, ?_, ?_⟩
  · intro h
    unfold agent.dispatchCall
    dsimp only
    rw [if_neg (by decide), if_pos rfl]
    unfold argsGet
    rw [h]
    rfl
  · intro h
    unfold agent.dispatchCall
    dsimp only
    rw [if_neg (by decide), if_neg (by decide), if_pos rfl]
    unfold argsGet
    rw [h]
    rfl
  · intro h
    have hdc : agent.dispatchCall resolve iterdir w
        (ToolCall.mk id "edit_file" args) =
        agent.edit_file_tool resolve w (argsGet args "path" ".") ""
          (argsGet args "new_str" "") := by
      unfold agent.dispatchCall
      dsimp only
      rw [if_neg (by decide), if_neg (by decide), if_neg (by decide)]
      unfold argsGet
      rw [h]
      rfl
    refine ⟨hdc, ?_, ?_⟩
    · intro hdir
      have hd : resolve (argsGet args "path" ".") ∉ w.dirs := by
        simpa using hdir
      rw [hdc]
      simp [agent.edit_file_tool, writeText, hd]
    · intro hdir
      have hd : resolve (argsGet args "path" ".") ∈ w.dirs := by
        simpa using hdir
      rw [hdc]
      simp [agent.edit_file_tool, writeText, hd]

/-- C10 witness: an edit_file request omitting `old_str`, whose defaulted
path is not a directory, is executed as a create-or-overwrite of that path
with the given `new_str`. -/
theorem dispatch_argument_defaults_witness :
    ([("path", "notes.txt"), ("new_str", "hello")] :
        List (String × String)).lookup "old_str" = none ∧
    (World.mk [] ([] : List String)).dirs.contains "notes.txt" = false ∧
    agent.dispatchCall (fun s => s) (fun _ => none) (World.mk [] [])
        (ToolCall.mk "w10" "edit_file"
          [("path", "notes.txt"), ("new_str", "hello")]) =
      Except.ok (World.mk [("notes.txt", "hello")] [],
        ToolPayload.action "notes.txt" "created_file") :=
  ⟨rfl, rfl,
   ((dispatch_argument_defaults (fun s => s) (fun _ => none) (World.mk [] [])
      "w10" [("path", "notes.txt"), ("new_str", "hello")]).2.2 rfl).2.1 rfl⟩

/-! ## Claim C1: batch dispatch ordering in the inner loop -/

theorem take_two_of_head (l : List (List Entry)) (x c : List Entry)
    (h : l.head? = some x) : (c :: l).take 2 = [c, x] := by
  cases l with
  | nil => simp at h
  | cons y t =>
    simp only [List.head?] at h
    injection h with h
    subst h
    rfl

theorem dispatchBatch_ok_forall2 (resolve : String → String)
    (iterdir : String → Option (List (String × Bool))) :
    ∀ (calls : List ToolCall) (w w' : World) (entries : List Entry),
      agent.dispatchBatch resolve iterdir w calls = (w', entries, none) →
      List.Forall₂ (fun c e => ∃ p, e = Entry.tool c.id p) calls entries := by
  intro calls
  induction calls with
  | nil =>
    intro w w' entries h
    simp only [agent.dispatchBatch, Prod.mk.injEq] at h
    obtain ⟨-, h2, -⟩ := h
    subst h2
    exact List.Forall₂.nil
  | cons c rest ih =>
    intro w w' entries h
    simp only [agent.dispatchBatch] at h
    cases hd : agent.dispatchCall resolve iterdir w c with
    | error e =>
      rw [hd] at h
      simp at h
    | ok wp =>
      obtain ⟨w1, p⟩ := wp
      rw [hd] at h
      dsimp only at h
      rcases hb : agent.dispatchBatch resolve iterdir w1 rest with ⟨w2, es2, st2⟩
      rw [hb] at h
      simp only [Prod.mk.injEq] at h
      obtain ⟨hw, he, hs⟩ := h
      subst hs
      subst he
      exact List.Forall₂.cons ⟨p, rfl⟩ (ih w1 w2 es2 hb)

theorem runTurnLoop_calls_head (oracle : List Entry → AssistantMessage)
    (resolve : String → String)
    (iterdir : String → Option (List (String × Bool))) (fuel : Nat)
    (w : World) (conv : List Entry) :
    (agent.runTurnLoop oracle resolve iterdir (fuel + 1) w conv).calls.head? =
      some conv := by
  simp only [agent.runTurnLoop]
  by_cases h : (oracle conv).tool_calls = []
  · rw [if_pos h]
    rfl
  · rw [if_neg h]
    cases hd :
        (agent.dispatchBatch resolve iterdir w (oracle conv).tool_calls).2.2 with
    | some e => rfl
    | none => rfl

theorem dispatchBatch_abort_split (resolve : String → String)
    (iterdir : String → Option (List (String × Bool))) :
    ∀ (calls : List ToolCall) (w w' : World) (entries : List Entry)
      (e : String),
      agent.dispatchBatch resolve iterdir w calls = (w', entries, some e) →
      ∃ done rest, calls = done ++ rest ∧ rest ≠ [] ∧
        List.Forall₂ (fun c e' => ∃ p, e' = Entry.tool c.id p) done entries := by
  intro calls
  induction calls with
  | nil =>
    intro w w' entries e h
    simp [agent.dispatchBatch, Prod.mk.injEq] at h
  | cons c rest ih =>
    intro w w' entries e h
    simp only [agent.dispatchBatch] at h
    cases hd : agent.dispatchCall resolve iterdir w c with
    | error e0 =>
      rw [hd] at h
      simp only [Prod.mk.injEq] at h
      obtain ⟨-, h2, -⟩ := h
      subst h2
      exact ⟨[], c :: rest, rfl, by simp, List.Forall₂.nil⟩
    | ok wp =>
      obtain ⟨w1, p⟩ := wp
      rw [hd] at h
      dsimp only at h
      rcases hb : agent.dispatchBatch resolve iterdir w1 rest with ⟨w2, es2, st2⟩
      rw [hb] at h
      simp only [Prod.mk.injEq] at h
      obtain ⟨hw, he, hs⟩ := h
      subst hs
      subst he
      obtain ⟨done1, rest1, hsplit, hne, hf⟩ := ih w1 w2 es2 e hb
      exact ⟨c :: done1, rest1, by simp [hsplit], hne,
        List.Forall₂.cons ⟨p, rfl⟩ hf⟩

/-- C1 counterexample: not every request in a batch is dispatched - when a
dispatch raises (here the try-less agent.py read_file_tool on a missing
file, first in a two-request batch), the `for` loop aborts: no outcome is
appended for either request, the exception escapes, and no further model
call occurs, so the second request is never dispatched. -/
theorem batch_abort_not_all_dispatched_cex :
    (agent.runTurnLoop
        (fun _ => AssistantMessage.mk ""
          [ToolCall.mk "cx" "read_file" [("filename", "missing.txt")],
           ToolCall.mk "cy" "read_file" [("filename", "a.txt")]])
        (fun s => s) (fun _ => none) 1
        (World.mk [("a.txt", "hi")] []) []).status =
      agent.TurnStatus.raised "FileNotFoundError: missing.txt" ∧
    (agent.runTurnLoop
        (fun _ => AssistantMessage.mk ""
          [ToolCall.mk "cx" "read_file" [("filename", "missing.txt")],
           ToolCall.mk "cy" "read_file" [("filename", "a.txt")]])
        (fun s => s) (fun _ => none) 1
        (World.mk [("a.txt", "hi")] []) []).conv =
      [Entry.assistant ""
        [ToolCall.mk "cx" "read_file" [("filename", "missing.txt")],
         ToolCall.mk "cy" "read_file" [("filename", "a.txt")]]] ∧
    (agent.runTurnLoop
        (fun _ => AssistantMessage.mk ""
          [ToolCall.mk "cx" "read_file" [("filename", "missing.txt")],
           ToolCall.mk "cy" "read_file" [("filename", "a.txt")]])
        (fun s => s) (fun _ => none) 1
        (World.mk [("a.txt", "hi")] []) []).calls = [[]] :=
  ⟨rfl, rfl, rfl⟩

/-- C1 amended: when every dispatch in the batch returns normally, the loop
dispatches all requests in order before the next model call and the outcome
entries appear in request order, each carrying its request's call_id; when
a dispatch raises (unknown tool name, or an OS error from the try-less
agent.py tools), the batch is aborted at that request - the outcomes
dispatched before the failure remain appended in order, the remaining
requests are never dispatched, the exception propagates, and no further
model call occurs. -/
theorem agent_batch_order_amended :
    ∀ (oracle : List Entry → AssistantMessage) (resolve : String → String)
      (iterdir : String → Option (List (String × Bool))) (fuel : Nat)
      (w : World) (conv : List Entry),
      (oracle conv).tool_calls ≠ [] →
      (∀ (w' : World) (entries : List Entry),
        agent.dispatchBatch resolve iterdir w (oracle conv).tool_calls =
          (w', entries, none) →
        List.Forall₂ (fun c e => ∃ p, e = Entry.tool c.id p)
          (oracle conv).tool_calls entries ∧
        (agent.runTurnLoop oracle resolve iterdir (fuel + 2) w conv).calls.take 2 =
          [conv,
           conv ++ [Entry.assistant (oracle conv).content (oracle conv).tool_calls]
             ++ entries]) ∧
      (∀ (w' : World) (entries : List Entry) (e : String),
        agent.dispatchBatch resolve iterdir w (oracle conv).tool_calls =
          (w', entries, some e) →
        (∃ done rest, (oracle conv).tool_calls = done ++ rest ∧ rest ≠ [] ∧
          List.Forall₂ (fun c e' => ∃ p, e' = Entry.tool c.id p) done entries) ∧
        (agent.runTurnLoop oracle resolve iterdir (fuel + 2) w conv).status =
          agent.TurnStatus.raised e ∧
        (agent.runTurnLoop oracle resolve iterdir (fuel + 2) w conv).conv =
          conv ++ [Entry.assistant (oracle conv).content (oracle conv).tool_calls]
            ++ entries ∧
        (agent.runTurnLoop oracle resolve iterdir (fuel + 2) w conv).calls =
          [conv]) := by
  intro oracle resolve iterdir fuel w conv h1
  constructor
  · intro w' entries h2
    refine ⟨dispatchBatch_ok_forall2 resolve iterdir _ w w' entries h2, ?_⟩
    have hh := runTurnLoop_calls_head oracle resolve iterdir fuel w'
      (conv ++ [Entry.assistant (oracle conv).content (oracle conv).tool_calls]
        ++ entries)
    show (agent.runTurnLoop oracle resolve iterdir (fuel + 1 + 1) w conv).calls.take 2 = _
    simp only [agent.runTurnLoop]
    rw [if_neg h1]
    rw [h2]
    dsimp only
    exact take_two_of_head _ _ _ hh
  · intro w' entries e h2
    have hstep : agent.runTurnLoop oracle resolve iterdir (fuel + 2) w conv =
        agent.TurnResult.mk w'
          ((conv ++
            [Entry.assistant (oracle conv).content (oracle conv).tool_calls]) ++
            entries)
          [conv] (agent.TurnStatus.raised e) := by
      show agent.runTurnLoop oracle resolve iterdir (fuel + 1 + 1) w conv = _
      simp only [agent.runTurnLoop]
      rw [if_neg h1, h2]
    exact ⟨dispatchBatch_abort_split resolve iterdir _ w w' entries e h2,
      by rw [hstep], by rw [hstep], by rw [hstep]⟩

/-- C1 amended witness: a fully successful one-request batch (outcome in
order, before the next model call), and an aborted batch whose dispatch
raises. -/
theorem agent_batch_order_amended_witness :
    List.Forall₂ (fun (c : ToolCall) (e : Entry) => ∃ p, e = Entry.tool c.id p)
      [ToolCall.mk "call_1" "read_file" [("filename", "a.txt")]]
      [Entry.tool "call_1" (ToolPayload.fileContent "a.txt" "hi")] ∧
    (agent.runTurnLoop
        (fun _ => AssistantMessage.mk ""
          [ToolCall.mk "call_1" "read_file" [("filename", "a.txt")]])
        (fun s => s) (fun _ => none) 2
        (World.mk [("a.txt", "hi")] []) []).calls.take 2 =
      [[],
       [Entry.assistant ""
          [ToolCall.mk "call_1" "read_file" [("filename", "a.txt")]],
        Entry.tool "call_1" (ToolPayload.fileContent "a.txt" "hi")]] ∧
    (agent.runTurnLoop
        (fun _ => AssistantMessage.mk ""
          [ToolCall.mk "cz" "read_file" [("filename", "nope.txt")]])
        (fun s => s) (fun _ => none) 2 (World.mk [] []) []).status =
      agent.TurnStatus.raised "FileNotFoundError: nope.txt" :=
  ⟨((agent_batch_order_amended
      (fun _ => AssistantMessage.mk ""
        [ToolCall.mk "call_1" "read_file" [("filename", "a.txt")]])
      (fun s => s) (fun _ => none) 0 (World.mk [("a.txt", "hi")] []) []
      (by decide)).1 (World.mk [("a.txt", "hi")] [])
      [Entry.tool "call_1" (ToolPayload.fileContent "a.txt" "hi")] rfl).1,
   ((agent_batch_order_amended
      (fun _ => AssistantMessage.mk ""
        [ToolCall.mk "call_1" "read_file" [("filename", "a.txt")]])
      (fun s => s) (fun _ => none) 0 (World.mk [("a.txt", "hi")] []) []
      (by decide)).1 (World.mk [("a.txt", "hi")] [])
      [Entry.tool "call_1" (ToolPayload.fileContent "a.txt" "hi")] rfl).2,
   ((agent_batch_order_amended
      (fun _ => AssistantMessage.mk ""
        [ToolCall.mk "cz" "read_file" [("filename", "nope.txt")]])
      (fun s => s) (fun _ => none) 0 (World.mk [] []) []
      (by decide)).2 (World.mk [] []) [] "FileNotFoundError: nope.txt"
      rfl).2.1⟩

/-! ## Claim C7: the conversation log is append-only -/

theorem dispatchBatch_entries_tool (resolve : String → String)
    (iterdir : String → Option (List (String × Bool))) :
    ∀ (calls : List ToolCall) (w : World),
      ∀ e ∈ (agent.dispatchBatch resolve iterdir w calls).2.1,
        ∃ i p, e = Entry.tool i p := by
  intro calls
  induction calls with
  | nil =>
    intro w e he
    simp [agent.dispatchBatch] at he
  | cons c rest ih =>
    intro w e he
    simp only [agent.dispatchBatch] at he
    cases hd : agent.dispatchCall resolve iterdir w c with
    | error er =>
      rw [hd] at he
      simp at he
    | ok wp =>
      obtain ⟨w1, p⟩ := wp
      rw [hd] at he
      dsimp only at he
      rw [List.mem_cons] at he
      rcases he with he | he
      · exact ⟨c.id, p, he⟩
      · exact ih w1 e he

theorem runTurnLoop_conv_extend (oracle : List Entry → AssistantMessage)
    (resolve : String → String)
    (iterdir : String → Option (List (String × Bool))) :
    ∀ (fuel : Nat) (w : World) (conv : List Entry),
      ∃ t, (agent.runTurnLoop oracle resolve iterdir fuel w conv).conv =
          conv ++ t ∧
        ∀ e ∈ t, e.isSystem = false := by
  intro fuel
  induction fuel with
  | zero =>
    intro w conv
    exact ⟨[], by simp [agent.runTurnLoop], by simp⟩
  | succ fuel ih =>
    intro w conv
    by_cases h : (oracle conv).tool_calls = []
    · refine ⟨[Entry.assistant (oracle conv).content []], ?_, ?_⟩
      · simp [agent.runTurnLoop, h]
      · intro e he
        simp at he
        subst he
        rfl
    · cases hd :
          (agent.dispatchBatch resolve iterdir w (oracle conv).tool_calls).2.2 with
      | some er =>
        refine ⟨Entry.assistant (oracle conv).content (oracle conv).tool_calls ::
          (agent.dispatchBatch resolve iterdir w (oracle conv).tool_calls).2.1,
          ?_, ?_⟩
        · simp [agent.runTurnLoop, h, hd]
        · intro e he
          rw [List.mem_cons] at he
          rcases he with he | he
          · subst he
            rfl
          · obtain ⟨i, p, hep⟩ := dispatchBatch_entries_tool resolve iterdir
              (oracle conv).tool_calls w e he
            subst hep
            rfl
      | none =>
        obtain ⟨t1, ht1, hs1⟩ :=
          ih (agent.dispatchBatch resolve iterdir w (oracle conv).tool_calls).1
            ((conv ++
              [Entry.assistant (oracle conv).content (oracle conv).tool_calls]) ++
              (agent.dispatchBatch resolve iterdir w (oracle conv).tool_calls).2.1)
        refine ⟨Entry.assistant (oracle conv).content (oracle conv).tool_calls ::
          ((agent.dispatchBatch resolve iterdir w (oracle conv).tool_calls).2.1 ++
            t1), ?_, ?_⟩
        · simp only [agent.runTurnLoop]
          rw [if_neg h]
          rw [hd]
          dsimp only
          rw [ht1]
          simp
        · intro e he
          rw [List.mem_cons] at he
          rcases he with he | he
          · subst he
            rfl
          · rw [List.mem_append] at he
            rcases he with he | he
            · obtain ⟨i, p, hep⟩ := dispatchBatch_entries_tool resolve iterdir
                (oracle conv).tool_calls w e he
              subst hep
              rfl
            · exact hs1 e he

theorem runTurnLoop_calls_subset (oracle : List Entry → AssistantMessage)
    (resolve : String → String)
    (iterdir : String → Option (List (String × Bool))) :
    ∀ (fuel : Nat) (w : World) (conv : List Entry),
      ∀ s ∈ (agent.runTurnLoop oracle resolve iterdir fuel w conv).calls,
        ∃ t, (agent.runTurnLoop oracle resolve iterdir fuel w conv).conv =
          s ++ t := by
  intro fuel
  induction fuel with
  | zero =>
    intro w conv s hs
    simp [agent.runTurnLoop] at hs
  | succ fuel ih =>
    intro w conv s hs
    by_cases h : (oracle conv).tool_calls = []
    · simp only [agent.runTurnLoop] at hs ⊢
      rw [if_pos h] at hs ⊢
      simp at hs
      exact ⟨[Entry.assistant (oracle conv).content []], by rw [hs]⟩
    · simp only [agent.runTurnLoop] at hs ⊢
      rw [if_neg h] at hs ⊢
      cases hd :
          (agent.dispatchBatch resolve iterdir w (oracle conv).tool_calls).2.2 with
      | some er =>
        rw [hd] at hs
        dsimp only at hs
        simp at hs
        dsimp only
        refine ⟨[Entry.assistant (oracle conv).content (oracle conv).tool_calls] ++
          (agent.dispatchBatch resolve iterdir w (oracle conv).tool_calls).2.1,
          ?_⟩
        rw [hs]
        simp
      | none =>
        rw [hd] at hs
        dsimp only at hs
        rw [List.mem_cons] at hs
        dsimp only
        rcases hs with hs | hs
        · obtain ⟨t1, ht1, -⟩ := runTurnLoop_conv_extend oracle resolve iterdir
            fuel (agent.dispatchBatch resolve iterdir w (oracle conv).tool_calls).1
            ((conv ++
              [Entry.assistant (oracle conv).content (oracle conv).tool_calls]) ++
              (agent.dispatchBatch resolve iterdir w (oracle conv).tool_calls).2.1)
          refine ⟨[Entry.assistant (oracle conv).content (oracle conv).tool_calls] ++
            (agent.dispatchBatch resolve iterdir w (oracle conv).tool_calls).2.1 ++
            t1, ?_⟩
          rw [ht1, hs]
          simp
        · exact ih _ _ s hs

theorem runUserLoop_conv_extend (oracle : List Entry → AssistantMessage)
    (resolve : String → String)
    (iterdir : String → Option (List (String × Bool))) (fuel : Nat) :
    ∀ (inputs : List String) (w : World) (conv : List Entry),
      ∃ t, (agent.runUserLoop oracle resolve iterdir fuel w conv inputs).conv =
          conv ++ t ∧
        ∀ e ∈ t, e.isSystem = false := by
  intro inputs
  induction inputs with
  | nil =>
    intro w conv
    exact ⟨[], by simp [agent.runUserLoop], by simp⟩
  | cons u rest ih =>
    intro w conv
    obtain ⟨t1, ht1, hs1⟩ := runTurnLoop_conv_extend oracle resolve iterdir fuel
      w (conv ++ [Entry.user (pyStrip u)])
    cases hst : (agent.runTurnLoop oracle resolve iterdir fuel w
        (conv ++ [Entry.user (pyStrip u)])).status with
    | answered txt =>
      obtain ⟨t2, ht2, hs2⟩ := ih
        (agent.runTurnLoop oracle resolve iterdir fuel w
          (conv ++ [Entry.user (pyStrip u)])).w
        (agent.runTurnLoop oracle resolve iterdir fuel w
          (conv ++ [Entry.user (pyStrip u)])).conv
      refine ⟨Entry.user (pyStrip u) :: (t1 ++ t2), ?_, ?_⟩
      · simp only [agent.runUserLoop]
        rw [hst]
        dsimp only
        rw [ht2, ht1]
        simp
      · intro e he
        rw [List.mem_cons] at he
        rcases he with he | he
        · subst he
          rfl
        · rw [List.mem_append] at he
          rcases he with he | he
          · exact hs1 e he
          · exact hs2 e he
    | fuelOut =>
      refine ⟨Entry.user (pyStrip u) :: t1, ?_, ?_⟩
      · simp only [agent.runUserLoop]
        rw [hst]
        dsimp only
        rw [ht1]
        simp
      · intro e he
        rw [List.mem_cons] at he
        rcases he with he | he
        · subst he
          rfl
        · exact hs1 e he
    | raised er =>
      refine ⟨Entry.user (pyStrip u) :: t1, ?_, ?_⟩
      · simp only [agent.runUserLoop]
        rw [hst]
        dsimp only
        rw [ht1]
        simp
      · intro e he
        rw [List.mem_cons] at he
        rcases he with he | he
        · subst he
          rfl
        · exact hs1 e he

theorem runUserLoop_calls_subset (oracle : List Entry → AssistantMessage)
    (resolve : String → String)
    (iterdir : String → Option (List (String × Bool))) (fuel : Nat) :
    ∀ (inputs : List String) (w : World) (conv : List Entry),
      ∀ s ∈ (agent.runUserLoop oracle resolve iterdir fuel w conv inputs).calls,
        ∃ t, (agent.runUserLoop oracle resolve iterdir fuel w conv inputs).conv =
          s ++ t := by
  intro inputs
  induction inputs with
  | nil =>
    intro w conv s hs
    simp [agent.runUserLoop] at hs
  | cons u rest ih =>
    intro w conv s hs
    cases hst : (agent.runTurnLoop oracle resolve iterdir fuel w
        (conv ++ [Entry.user (pyStrip u)])).status with
    | answered txt =>
      simp only [agent.runUserLoop] at hs ⊢
      rw [hst] at hs ⊢
      dsimp only at hs ⊢
      rw [List.mem_append] at hs
      rcases hs with hs | hs
      · obtain ⟨t1, ht1⟩ := runTurnLoop_calls_subset oracle resolve iterdir fuel
          w (conv ++ [Entry.user (pyStrip u)]) s hs
        obtain ⟨t2, ht2, -⟩ := runUserLoop_conv_extend oracle resolve iterdir
          fuel rest
          (agent.runTurnLoop oracle resolve iterdir fuel w
            (conv ++ [Entry.user (pyStrip u)])).w
          (agent.runTurnLoop oracle resolve iterdir fuel w
            (conv ++ [Entry.user (pyStrip u)])).conv
        exact ⟨t1 ++ t2, by rw [ht2, ht1]; simp⟩
      · exact ih _ _ s hs
    | fuelOut =>
      simp only [agent.runUserLoop] at hs ⊢
      rw [hst] at hs ⊢
      dsimp only at hs ⊢
      exact runTurnLoop_calls_subset oracle resolve iterdir fuel w
        (conv ++ [Entry.user (pyStrip u)]) s hs
    | raised er =>
      simp only [agent.runUserLoop] at hs ⊢
      rw [hst] at hs ⊢
      dsimp only at hs ⊢
      exact runTurnLoop_calls_subset oracle resolve iterdir fuel w
        (conv ++ [Entry.user (pyStrip u)]) s hs

/-- C7: the conversation log of `Agent.run` is append-only - the system
entry is created once at construction and stays first, every later entry is
a non-system entry appended by the loop (user, assistant, tool; never
mutated, reordered or deleted), and every model call receives the full
ordered log as it stood at call time (each snapshot passed to the model is
an initial segment of the final conversation). -/
theorem conversation_append_only :
    ∀ (oracle : List Entry → AssistantMessage) (resolve : String → String)
      (iterdir : String → Option (List (String × Bool))) (fuel : Nat)
      (w : World) (inputs : List String),
      (∃ t, (agent.run oracle resolve iterdir fuel w inputs).conv =
          Entry.system agent.SYSTEM_PROMPT :: t ∧
        ∀ e ∈ t, e.isSystem = false) ∧
      (∀ s ∈ (agent.run oracle resolve iterdir fuel w inputs).calls,
        ∃ t, (agent.run oracle resolve iterdir fuel w inputs).conv = s ++ t) := by
  intro oracle resolve iterdir fuel w inputs
  constructor
  · obtain ⟨t, ht, hsys⟩ := runUserLoop_conv_extend oracle resolve iterdir fuel
      inputs w [Entry.system agent.SYSTEM_PROMPT]
    exact ⟨t, by simpa [agent.run] using ht, hsys⟩
  · intro s hs
    exact runUserLoop_calls_subset oracle resolve iterdir fuel inputs w
      [Entry.system agent.SYSTEM_PROMPT] s hs

/-- C7 witness: on a concrete session the final conversation starts with
the single system entry and extends the snapshot the model was called on. -/
theorem conversation_append_only_witness :
    (∃ t, (agent.run (fun _ => AssistantMessage.mk "ok" []) (fun s => s)
        (fun _ => none) 1 (World.mk [] []) ["hi"]).conv =
        Entry.system agent.SYSTEM_PROMPT :: t ∧
      ∀ e ∈ t, e.isSystem = false) ∧
    (∃ t, (agent.run (fun _ => AssistantMessage.mk "ok" []) (fun s => s)
        (fun _ => none) 1 (World.mk [] []) ["hi"]).conv =
        [Entry.system agent.SYSTEM_PROMPT, Entry.user "hi"] ++ t) :=
  ⟨(conversation_append_only (fun _ => AssistantMessage.mk "ok" [])
      (fun s => s) (fun _ => none) 1 (World.mk [] []) ["hi"]).1,
   (conversation_append_only (fun _ => AssistantMessage.mk "ok" [])
      (fun s => s) (fun _ => none) 1 (World.mk [] []) ["hi"]).2
     [Entry.system agent.SYSTEM_PROMPT, Entry.user "hi"] (by decide)⟩

/-! ## Claim C8: run_turn returns the final answer to the outer shell -/

theorem spec_dispatchBatch_obs (env : Env)
    (o1 o2 : String → List (String × String) → Unit) :
    ∀ (reqs : List ToolCall) (w : World),
      spec.dispatchBatch env o1 w reqs = spec.dispatchBatch env o2 w reqs := by
  intro reqs
  induction reqs with
  | nil => intro w; rfl
  | cons c rest ih =>
    intro w
    simp only [spec.dispatchBatch]
    rw [ih]

theorem spec_runTurnInner_obs (gateway : List Entry → Decision) (env : Env)
    (o1 o2 : String → List (String × String) → Unit) :
    ∀ (fuel : Nat) (w : World) (conv : List Entry),
      spec.runTurnInner gateway env o1 fuel w conv =
        spec.runTurnInner gateway env o2 fuel w conv := by
  intro fuel
  induction fuel with
  | zero => intro w conv; rfl
  | succ fuel ih =>
    intro w conv
    simp only [spec.runTurnInner]
    cases hg : gateway conv with
    | FinalAnswer t => rfl
    | ToolRequests reqs =>
      dsimp only
      rw [spec_dispatchBatch_obs env o1 o2 reqs w, ih]

theorem runTurnInner_final (gateway : List Entry → Decision) (env : Env)
    (observer : String → List (String × String) → Unit) :
    ∀ (fuel : Nat) (w : World) (conv : List Entry) (w' : World)
      (conv' : List Entry) (text : String),
      spec.runTurnInner gateway env observer fuel w conv =
        some (w', conv', text) →
      ∃ t, conv' = (conv ++ t) ++ [Entry.assistant text []] ∧
        gateway (conv ++ t) = Decision.FinalAnswer text := by
  intro fuel
  induction fuel with
  | zero =>
    intro w conv w' conv' text h
    simp [spec.runTurnInner] at h
  | succ fuel ih =>
    intro w conv w' conv' text h
    simp only [spec.runTurnInner] at h
    cases hg : gateway conv with
    | FinalAnswer t =>
      rw [hg] at h
      dsimp only at h
      injection h with h
      simp only [Prod.mk.injEq] at h
      obtain ⟨-, h2, h3⟩ := h
      subst h3
      exact ⟨[], by simpa using h2.symm, by simpa using hg⟩
    | ToolRequests reqs =>
      rw [hg] at h
      dsimp only at h
      obtain ⟨t, ht, hgw⟩ := ih _ _ _ _ _ h
      refine ⟨[Entry.assistant "" reqs] ++
        (spec.dispatchBatch env observer w reqs).2 ++ t, ?_, ?_⟩
      · simpa [List.append_assoc] using ht
      · simpa [List.append_assoc] using hgw

/-- C8: `run_turn(user_text, tool_observer?)` returns the assistant's final
answer text for the turn - the text of the terminal FinalAnswer decision,
which is also the content of the assistant entry the turn appended last -
and autom8.py's main loop invokes run_turn exactly once per user input,
printing the returned text. -/
theorem run_turn_returns_final_answer :
    ∀ (gateway : List Entry → Decision) (env : Env)
      (observer : String → List (String × String) → Unit) (fuel : Nat)
      (w : World) (conv : List Entry) (u : String) (w' : World)
      (conv' : List Entry) (text : String),
      spec.run_turn gateway env observer fuel w conv u =
        some (w', conv', text) →
      (∃ t, conv' = ((conv ++ [Entry.user u]) ++ t) ++
          [Entry.assistant text []] ∧
        gateway ((conv ++ [Entry.user u]) ++ t) = Decision.FinalAnswer text) ∧
      (∀ rest, autom8.mainOutputs gateway env fuel w conv (u :: rest) =
        text :: autom8.mainOutputs gateway env fuel w' conv' rest) := by
  intro gateway env observer fuel w conv u w' conv' text h
  constructor
  · exact runTurnInner_final gateway env observer fuel w
      (conv ++ [Entry.user u]) w' conv' text h
  · intro rest
    have h0 : spec.run_turn gateway env (fun _ _ => ()) fuel w conv u =
        some (w', conv', text) := by
      unfold spec.run_turn at h ⊢
      rw [spec_runTurnInner_obs gateway env (fun _ _ => ()) observer]
      exact h
    simp only [autom8.mainOutputs]
    rw [h0]

/-- C8 witness: one concrete turn where the gateway immediately answers. -/
theorem run_turn_returns_final_answer_witness :
    (∃ t, [Entry.user "hi", Entry.assistant "done" []] =
        ([Entry.user "hi"] ++ t) ++ [Entry.assistant "done" []] ∧
      Decision.FinalAnswer "done" = Decision.FinalAnswer "done") ∧
    (∀ rest, autom8.mainOutputs (fun _ => Decision.FinalAnswer "done")
        (Env.mk (fun s => s) (fun _ => none) (SubprocResult.ok "")
          (SubprocResult.ok "") (SubprocResult.ok "") (SubprocResult.ok ""))
        1 (World.mk [] []) [] ("hi" :: rest) =
      "done" :: autom8.mainOutputs (fun _ => Decision.FinalAnswer "done")
        (Env.mk (fun s => s) (fun _ => none) (SubprocResult.ok "")
          (SubprocResult.ok "") (SubprocResult.ok "") (SubprocResult.ok ""))
        1 (World.mk [] []) [Entry.user "hi", Entry.assistant "done" []] rest) :=
  run_turn_returns_final_answer (fun _ => Decision.FinalAnswer "done")
    (Env.mk (fun s => s) (fun _ => none) (SubprocResult.ok "")
      (SubprocResult.ok "") (SubprocResult.ok "") (SubprocResult.ok ""))
    (fun _ _ => ()) 1 (World.mk [] []) [] "hi" (World.mk [] [])
    [Entry.user "hi", Entry.assistant "done" []] "done" rfl
